import Mathlib

/-!
Verification development for the HubSpot→Airtable UPSERT synchronization engine
(`server/services/sync_service.ts`, `server/services/airtable_service.ts`,
`server/services/hubspot_service.ts`, and the central config).

The TypeScript services are shallowly embedded as pure Lean functions.  The
Airtable project store is modelled as an explicit state value threaded through
the engine; the company/contact target-store operations (whose implementations
live behind the Airtable API) are modelled as fallible oracles supplied by an
environment record, matching the source signatures.  JavaScript truthiness of
strings and numbers is modelled explicitly (`""` and `0` are falsy), and
`undefined` fields are modelled with `Option`.
-/

namespace FitOps

/-- JS truthiness for an optional string: `undefined` and `""` are falsy. -/
def optTruthy : Option String → Bool
  | some s => s != ""
  | none => false

/-- JS `a || d` for an optional string `a` and default `d`. -/
def jsOr (a : Option String) (d : String) : String :=
  match a with
  | some s => if s == "" then d else s
  | none => d

/-- JS `s.toLowerCase()` (character-wise, as in the source's ASCII stage codes). -/
def jsToLower (s : String) : String :=
  ⟨s.data.map Char.toLower⟩

/-- JS `s.trim()`: strip leading and trailing whitespace. -/
def jsTrim (s : String) : String :=
  ⟨((s.data.dropWhile Char.isWhitespace).reverse.dropWhile Char.isWhitespace).reverse⟩

/-- JS `closeDate.split('T')[0]`: the prefix of `s` before the first `T`
(the whole string when no `T` occurs). -/
def datePart (s : String) : String :=
  ⟨s.data.takeWhile (fun c => c != 'T')⟩

/-! ## Central configuration (`config.ts`)

Embedded from the current configuration object: table of stages that trigger
project creation, the update toggle, the syncable-field whitelists and the
deal-stage → project-status table.  Note that `amount` is deliberately absent
from `syncableFields` and from the deal→project field map ("Budget not synced -
Airtable has 'Budget Hours' which is different from deal amount"). -/

namespace Config

def projectCreationStages : List String := ["closedwon"]

def enableUpdates : Bool := true

def syncableFields : List String := ["dealname", "closedate", "description"]

def syncableContactFields : List String :=
  ["firstname", "lastname", "email", "phone", "jobtitle"]

/-- `config.projectStatusMapping`: HubSpot deal stage → Airtable project status. -/
def projectStatusMapping (stageId : String) : Option String :=
  if stageId == "closedwon" then some "In Progress"
  else if stageId == "contractsent" then some "Planned"
  else if stageId == "decisionmakerboughtin" then some "Planned"
  else if stageId == "presentationscheduled" then some "Planned"
  else if stageId == "qualifiedtobuy" then some "Not Started"
  else if stageId == "appointmentscheduled" then some "Not Started"
  else if stageId == "closedlost" then some "Cancelled"
  else none

end Config

/-! ## Source Record Gateway (`hubspot_service.ts`) -/

/-- The fixed lookup table inside `mapHubSpotStageToReadable`, keyed by the
lowercased native stage code. -/
def stageMapping (stageId : String) : Option String :=
  if stageId == "appointmentscheduled" then some "New"
  else if stageId == "qualifiedtobuy" then some "Discovery"
  else if stageId == "presentationscheduled" then some "Proposal"
  else if stageId == "decisionmakerboughtin" then some "Negotiation"
  else if stageId == "contractsent" then some "Negotiation"
  else if stageId == "closedwon" then some "Closed Won"
  else if stageId == "closedlost" then some "Closed Lost"
  else none

/-- `mapHubSpotStageToReadable`: `stageMapping[hubspotStage.toLowerCase()] || hubspotStage`. -/
def mapHubSpotStageToReadable (hubspotStage : String) : String :=
  match stageMapping (jsToLower hubspotStage) with
  | some v => if v == "" then hubspotStage else v
  | none => hubspotStage

/-- `ContactDetails` from `hubspot_service.ts`. -/
structure ContactDetails where
  id : String
  firstName : String
  lastName : String
  email : String
  phone : Option String := none
  jobTitle : Option String := none
  companyName : Option String := none
  deriving DecidableEq, Repr

/-- `CompanyDetails` from `hubspot_service.ts`. -/
structure CompanyDetails where
  id : String
  name : String
  domain : Option String := none
  industry : Option String := none
  numberOfEmployees : Option String := none
  country : Option String := none
  deriving DecidableEq, Repr

/-- `DealWithAssociations` from `hubspot_service.ts`.  `closeDate` and
`description` are plain strings in the source (defaulted to `""`), with JS
truthiness checks downstream, so `""` plays the role of "absent". -/
structure DealWithAssociations where
  id : String
  name : String
  amount : Int
  stage : String
  stageId : String
  closeDate : String
  description : String
  contacts : List ContactDetails := []
  company : Option CompanyDetails := none
  deriving DecidableEq, Repr

/-! ## Target Record Store data model (`airtable_service.ts`) -/

/-- `Project` as returned by the Airtable service lookups.  In the source the
`budget` field is hard-coded to `0` on every read ("Budget not synced"). -/
structure Project where
  id : String
  name : String
  hubspotDealId : String
  budget : Int
  status : String
  startDate : String
  description : String
  companyId : Option String := none
  deriving DecidableEq, Repr

/-- `ProjectInput` for creating/updating a project. -/
structure ProjectInput where
  name : String
  hubspotDealId : String
  budget : Option Int := none
  status : Option String := none
  startDate : Option String := none
  description : Option String := none
  companyId : Option String := none
  clientId : Option String := none
  deriving DecidableEq, Repr

/-- `Partial<ProjectInput>` as produced by `buildProjectUpdates`: a key is
present exactly when the corresponding option is `some`. -/
structure ProjectUpdates where
  name : Option String := none
  budget : Option Int := none
  startDate : Option String := none
  description : Option String := none
  status : Option String := none
  deriving DecidableEq, Repr

/-- `Object.keys(updates)` for a project update object, in assignment order. -/
def ProjectUpdates.keys (u : ProjectUpdates) : List String :=
  (if u.name.isSome then ["name"] else []) ++
  (if u.budget.isSome then ["budget"] else []) ++
  (if u.startDate.isSome then ["startDate"] else []) ++
  (if u.description.isSome then ["description"] else []) ++
  (if u.status.isSome then ["status"] else [])

/-- `Object.keys(updates).length === 0`. -/
def ProjectUpdates.isEmpty (u : ProjectUpdates) : Bool :=
  u.name.isNone && u.budget.isNone && u.startDate.isNone &&
    u.description.isNone && u.status.isNone

def emptyProjectUpdates : ProjectUpdates := {}

/-- `Client` record from the Airtable Contacts table. -/
structure Client where
  id : String
  hubspotContactId : String
  firstName : String
  lastName : String
  email : String
  phone : Option String := none
  jobTitle : Option String := none
  companyName : Option String := none
  deriving DecidableEq, Repr

/-- `ClientInput` for creating a client. -/
structure ClientInput where
  hubspotContactId : String
  firstName : String
  lastName : String
  email : String
  phone : Option String := none
  jobTitle : Option String := none
  companyName : Option String := none
  deriving DecidableEq, Repr

/-- `Partial<ClientInput>`: the outer option is key presence; the inner option
is the (possibly undefined) assigned value, since the source assigns optional
contact fields directly. -/
structure ClientUpdates where
  firstName : Option String := none
  lastName : Option String := none
  email : Option String := none
  phone : Option (Option String) := none
  jobTitle : Option (Option String) := none
  companyName : Option (Option String) := none
  deriving DecidableEq, Repr

def ClientUpdates.isEmpty (u : ClientUpdates) : Bool :=
  u.firstName.isNone && u.lastName.isNone && u.email.isNone &&
    u.phone.isNone && u.jobTitle.isNone && u.companyName.isNone

/-- `CompanyRecord` from the Airtable Companies table (declaration consumed by
`sync_service.ts`; the concrete reader lives behind the Airtable API). -/
structure CompanyRecord where
  id : String
  name : String
  website : Option String := none
  industry : Option String := none
  companySize : Option String := none
  country : Option String := none
  deriving DecidableEq, Repr

/-- `CompanyInput` for creating a company record. -/
structure CompanyInput where
  hubspotCompanyId : String
  name : String
  website : Option String := none
  industry : Option String := none
  companySize : Option String := none
  country : Option String := none
  deriving DecidableEq, Repr

/-- `Partial<CompanyInput>` produced by `buildCompanyUpdates`. -/
structure CompanyUpdates where
  name : Option String := none
  website : Option (Option String) := none
  industry : Option (Option String) := none
  companySize : Option (Option String) := none
  country : Option (Option String) := none
  deriving DecidableEq, Repr

def CompanyUpdates.isEmpty (u : CompanyUpdates) : Bool :=
  u.name.isNone && u.website.isNone && u.industry.isNone &&
    u.companySize.isNone && u.country.isNone

/-! ## Sync result types (`sync_service.ts`) -/

inductive SyncAction where
  | created
  | updated
  | skipped
  | error
  deriving DecidableEq, Repr

/-- `SyncResult`. -/
structure SyncResult where
  success : Bool
  action : SyncAction
  dealId : String
  projectId : Option String := none
  clientId : Option String := none
  companyId : Option String := none
  message : String
  deriving DecidableEq, Repr

/-- `ContactSyncResult`. -/
structure ContactSyncResult where
  success : Bool
  action : SyncAction
  contactId : String
  clientId : Option String := none
  message : String
  deriving DecidableEq, Repr

/-- `CompanySyncResult`. -/
structure CompanySyncResult where
  success : Bool
  action : SyncAction
  hubspotCompanyId : String
  airtableCompanyId : Option String := none
  message : String
  deriving DecidableEq, Repr

/-- `HubSpotWebhookPayload`. -/
structure HubSpotWebhookPayload where
  objectId : Nat
  propertyName : Option String := none
  propertyValue : Option String := none
  changeSource : Option String := none
  eventId : Nat
  subscriptionId : Nat
  portalId : Nat
  appId : Nat
  occurredAt : Nat
  subscriptionType : String
  attemptNumber : Nat
  objectTypeId : Option String := none
  deriving DecidableEq, Repr

/-! ## Pure builders and diff computation (`sync_service.ts`) -/

/-- `buildProjectDescription`: synthesized summary from the deal associations.
`today` stands for `new Date().toISOString().split('T')[0]`, supplied by the
environment. -/
def buildProjectDescription (deal : DealWithAssociations) (today : String) : String :=
  let parts : List String :=
    (match deal.company with
     | some c => ["Company: " ++ c.name]
     | none => []) ++
    (match deal.contacts with
     | pc :: _ =>
        ["Primary Contact: " ++ pc.firstName ++ " " ++ pc.lastName ++ " (" ++ pc.email ++ ")"]
     | [] => []) ++
    ["Synced from HubSpot on " ++ today]
  String.intercalate "\n" parts

/-- `buildProjectFromDeal`: project input for creation, with optional client
and company links. -/
def buildProjectFromDeal (deal : DealWithAssociations) (today : String)
    (clientId companyId : Option String) : ProjectInput :=
  let stageId := jsToLower deal.stageId
  let status := jsOr (Config.projectStatusMapping stageId) "Active"
  { name := jsTrim deal.name
    hubspotDealId := deal.id
    budget := some deal.amount
    status := some status
    startDate := if deal.closeDate != "" then some (datePart deal.closeDate) else none
    description :=
      some (if deal.description != "" then deal.description
            else buildProjectDescription deal today)
    companyId := companyId
    clientId := clientId }

/-- The `dealname` block of `buildProjectUpdates`. -/
def diffName (deal : DealWithAssociations) (p : Project) (u : ProjectUpdates) :
    ProjectUpdates :=
  if Config.syncableFields.contains "dealname" then
    let newName := jsTrim deal.name
    if newName != p.name then { u with name := some newName } else u
  else u

/-- The `amount` block of `buildProjectUpdates`. -/
def diffBudget (deal : DealWithAssociations) (p : Project) (u : ProjectUpdates) :
    ProjectUpdates :=
  if Config.syncableFields.contains "amount" then
    if deal.amount != p.budget then { u with budget := some deal.amount } else u
  else u

/-- The `closedate` block of `buildProjectUpdates`. -/
def diffStartDate (deal : DealWithAssociations) (p : Project) (u : ProjectUpdates) :
    ProjectUpdates :=
  if Config.syncableFields.contains "closedate" && deal.closeDate != "" then
    let newStartDate := datePart deal.closeDate
    if newStartDate != p.startDate then { u with startDate := some newStartDate } else u
  else u

/-- The `description` block of `buildProjectUpdates`. -/
def diffDescription (deal : DealWithAssociations) (p : Project) (u : ProjectUpdates) :
    ProjectUpdates :=
  if Config.syncableFields.contains "description" && deal.description != "" then
    if deal.description != p.description then
      { u with description := some deal.description }
    else u
  else u

/-- The unconditional status block of `buildProjectUpdates`
("Always update status based on stage"). -/
def diffStatus (deal : DealWithAssociations) (p : Project) (u : ProjectUpdates) :
    ProjectUpdates :=
  match Config.projectStatusMapping (jsToLower deal.stageId) with
  | some newStatus =>
    if newStatus != "" && newStatus != p.status then { u with status := some newStatus }
    else u
  | none => u

/-- `buildProjectUpdates`: the five conditional-assignment blocks of the
source, applied in source order to the empty update object. -/
def buildProjectUpdates (deal : DealWithAssociations) (existingProject : Project) :
    ProjectUpdates :=
  diffStatus deal existingProject
    (diffDescription deal existingProject
      (diffStartDate deal existingProject
        (diffBudget deal existingProject
          (diffName deal existingProject {}))))

/-- `buildClientFromContact`. -/
def buildClientFromContact (contact : ContactDetails) : ClientInput :=
  { hubspotContactId := contact.id
    firstName := contact.firstName
    lastName := contact.lastName
    email := contact.email
    phone := contact.phone
    jobTitle := contact.jobTitle
    companyName := contact.companyName }

/-- `buildClientUpdates`: contact field diff over the syncable contact fields. -/
def buildClientUpdates (contact : ContactDetails) (existingClient : Client) :
    ClientUpdates :=
  let u0 : ClientUpdates := {}
  let u1 :=
    if Config.syncableContactFields.contains "firstname" &&
        contact.firstName != existingClient.firstName then
      { u0 with firstName := some contact.firstName } else u0
  let u2 :=
    if Config.syncableContactFields.contains "lastname" &&
        contact.lastName != existingClient.lastName then
      { u1 with lastName := some contact.lastName } else u1
  let u3 :=
    if Config.syncableContactFields.contains "email" &&
        contact.email != existingClient.email then
      { u2 with email := some contact.email } else u2
  let u4 :=
    if Config.syncableContactFields.contains "phone" &&
        contact.phone != existingClient.phone then
      { u3 with phone := some contact.phone } else u3
  let u5 :=
    if Config.syncableContactFields.contains "jobtitle" &&
        contact.jobTitle != existingClient.jobTitle then
      { u4 with jobTitle := some contact.jobTitle } else u4
  if Config.syncableContactFields.contains "company" &&
      contact.companyName != existingClient.companyName then
    { u5 with companyName := some contact.companyName } else u5

/-- `buildCompanyFromHubSpot`. -/
def buildCompanyFromHubSpot (company : CompanyDetails) : CompanyInput :=
  { hubspotCompanyId := company.id
    name := company.name
    website := company.domain
    industry := company.industry
    companySize := company.numberOfEmployees
    country := company.country }

/-- `buildCompanyUpdates`.  The syncable-company-field whitelist is consumed via
`config.fieldMapping.syncableCompanyFields`, whose current value is not part of
the embedded sources, so it is taken as a parameter. -/
def buildCompanyUpdates (syncableCompanyFields : List String)
    (company : CompanyDetails) (existingCompany : CompanyRecord) : CompanyUpdates :=
  let u0 : CompanyUpdates := {}
  let u1 :=
    if syncableCompanyFields.contains "name" && company.name != existingCompany.name then
      { u0 with name := some company.name } else u0
  let u2 :=
    if syncableCompanyFields.contains "domain" && company.domain != existingCompany.website then
      { u1 with website := some company.domain } else u1
  let u3 :=
    if syncableCompanyFields.contains "industry" &&
        company.industry != existingCompany.industry then
      { u2 with industry := some company.industry } else u2
  let u4 :=
    if syncableCompanyFields.contains "numberofemployees" &&
        company.numberOfEmployees != existingCompany.companySize then
      { u3 with companySize := some company.numberOfEmployees } else u3
  if syncableCompanyFields.contains "country" &&
      company.country != existingCompany.country then
    { u4 with country := some company.country } else u4

/-! ## Airtable field translation for project updates (`updateProject`)

`updateProject` maps the canonical partial update to Airtable-native field
names.  Budget is never written ("Budget not synced"), and only the four fields
below can appear. -/

/-- The `fields` record assembled inside `updateProject`, as an ordered list of
(Airtable field name, value) pairs. -/
def updateProjectFields (updates : ProjectUpdates) : List (String × String) :=
  (match updates.name with
   | some v => if v != "" && Config.syncableFields.contains "dealname" then
        [("Project Name", v)] else []
   | none => []) ++
  (match updates.startDate with
   | some v => if v != "" && Config.syncableFields.contains "closedate" then
        [("Start Date", v)] else []
   | none => []) ++
  (match updates.description with
   | some v => if v != "" && Config.syncableFields.contains "description" then
        [("Description", v)] else []
   | none => []) ++
  (match updates.status with
   | some v => if v != "" then [("Status", v)] else []
   | none => [])

/-! ## Airtable project store state

An Airtable row of the Projects table.  `Option` marks fields that may be
absent (`record.get` returning `undefined`).  The `Contacts`/`Company` linked
fields hold at most one record id each, matching how the sync engine writes
them (`[clientId]`/`[companyId]`). -/

structure ProjectRec where
  id : String
  projectName : String
  hubspotDealId : String
  status : Option String := none
  startDate : Option String := none
  description : Option String := none
  company : Option String := none
  contacts : Option String := none
  deriving DecidableEq, Repr

structure ProjectStore where
  recs : List ProjectRec
  counter : Nat
  deriving DecidableEq, Repr

/-- Conversion of a stored row to the `Project` shape returned by the Airtable
service (`budget` hard-coded to 0, `||` fallbacks as in the source). -/
def projectView (r : ProjectRec) : Project :=
  { id := r.id
    name := r.projectName
    hubspotDealId := r.hubspotDealId
    budget := 0
    status := jsOr r.status "Active"
    startDate := jsOr r.startDate ""
    description := jsOr r.description ""
    companyId := match r.company with
      | some c => if c == "" then none else some c
      | none => none }

/-- `findProjectByHubSpotDealId`: first row whose `HubSpot Deal ID` matches. -/
def findProjectByHubSpotDealId (recs : List ProjectRec) (hubspotDealId : String) :
    Option Project :=
  (recs.find? (fun r => r.hubspotDealId == hubspotDealId)).map projectView

/-- Engine state: the project store plus instrumentation recording, in call
order, the upstream fetches and the target-store write calls issued by the
engine.  Each list only grows, and only at its own call site. -/
structure SyncState where
  store : ProjectStore
  fetchCalls : List (String × Option String) := []
  createCalls : List ProjectInput := []
  updateCalls : List (String × List (String × String)) := []
  linkClientCalls : List (String × String) := []
  linkCompanyCalls : List (String × String) := []
  deriving DecidableEq, Repr

/-! ## Environment: upstream gateway and company/contact store oracles

The company and contact target-store operations live behind the Airtable API;
their observable contracts (lookup that may throw or report absence, fallible
create/update) are captured as oracle functions.  Injectable faults model
thrown Airtable errors for the project-store write operations. -/

/-- Oracle for the Airtable company operations consumed by
`syncCompanyToAirtable`.  Modelled from the spec: `findCompanyByHubSpotId`,
`createCompany` and `updateCompany` are store capabilities ("find by external
id", "create", "update") that may raise on transport failure. -/
structure CompanyStoreOps where
  findCompanyByHubSpotId : String → Except String (Option CompanyRecord)
  createCompany : CompanyInput → Except String CompanyRecord
  updateCompany : String → CompanyUpdates → Except String CompanyRecord

/-- Oracle for the Airtable client (Contacts table) operations.  The lookup
catches API errors internally and reports `null`, so it is infallible here;
create/update rethrow wrapped errors. -/
structure ClientStoreOps where
  findClientByHubSpotContactId : String → Option Client
  createClient : ClientInput → Except String Client
  updateClient : String → ClientUpdates → Except String Client

structure Env where
  /-- `getDealWithAssociations`: may throw, report not-found, or return a deal. -/
  fetchDeal : String → Except String (Option DealWithAssociations)
  /-- `getContactDetails`: catches API errors internally, `null` on failure. -/
  getContactDetails : String → Option ContactDetails
  companyOps : CompanyStoreOps
  clientOps : ClientStoreOps
  /-- `config.fieldMapping.syncableCompanyFields` (current value not in the
  embedded sources). -/
  syncableCompanyFields : List String
  /-- `new Date().toISOString().split('T')[0]` at sync time. -/
  today : String
  /-- Injected Airtable API failure for `createProject` (the thrown message). -/
  createProjectErr : Option String := none
  /-- Injected Airtable API failure for `updateProject`. -/
  updateProjectErr : Option String := none
  /-- Injected Airtable API failure for `linkProjectToClient`. -/
  linkClientErr : Option String := none
  /-- Injected Airtable API failure for `linkProjectToCompany`. -/
  linkCompanyErr : Option String := none

/-! ## Project store operations (`airtable_service.ts`) -/

/-- The Airtable row written by `createProject` (optional fields only when the
input value is truthy). -/
def projectRecOfInput (rid : String) (project : ProjectInput) : ProjectRec :=
  { id := rid
    projectName := project.name
    hubspotDealId := project.hubspotDealId
    status := if optTruthy project.status then project.status else none
    startDate := if optTruthy project.startDate then project.startDate else none
    description := if optTruthy project.description then project.description else none
    company := if optTruthy project.companyId then project.companyId else none
    contacts := if optTruthy project.clientId then project.clientId else none }

/-- `createProject`: assembles Airtable fields (optional ones only when
truthy), creates the row, returns the `Project` echo of the input. -/
def createProject (env : Env) (st : SyncState) (project : ProjectInput) :
    Except String Project × SyncState :=
  let st := { st with createCalls := st.createCalls ++ [project] }
  match env.createProjectErr with
  | some e => (.error ("Failed to create project in Airtable: " ++ e), st)
  | none =>
    let rid := "rec" ++ toString st.store.counter
    let r : ProjectRec := projectRecOfInput rid project
    let p : Project :=
      { id := rid
        name := project.name
        hubspotDealId := project.hubspotDealId
        budget := project.budget.getD 0
        status := jsOr project.status "Active"
        startDate := jsOr project.startDate ""
        description := jsOr project.description ""
        companyId := project.companyId }
    (.ok p,
      { st with store := { recs := st.store.recs ++ [r], counter := st.store.counter + 1 } })

/-- Airtable partial update: replace exactly the supplied fields on a row. -/
def applyField (r : ProjectRec) (fv : String × String) : ProjectRec :=
  if fv.1 == "Project Name" then { r with projectName := fv.2 }
  else if fv.1 == "Start Date" then { r with startDate := some fv.2 }
  else if fv.1 == "Description" then { r with description := some fv.2 }
  else if fv.1 == "Status" then { r with status := some fv.2 }
  else if fv.1 == "Contacts" then { r with contacts := some fv.2 }
  else if fv.1 == "Company" then { r with company := some fv.2 }
  else r

def applyFields (r : ProjectRec) (fields : List (String × String)) : ProjectRec :=
  fields.foldl applyField r

/-- `updateProject`: translate the partial update via `updateProjectFields`
and write it to the row; throws on API failure or unknown record. -/
def updateProject (env : Env) (st : SyncState) (recordId : String)
    (updates : ProjectUpdates) : Except String Project × SyncState :=
  let fields := updateProjectFields updates
  let st := { st with updateCalls := st.updateCalls ++ [(recordId, fields)] }
  match env.updateProjectErr with
  | some e => (.error ("Failed to update project in Airtable: " ++ e), st)
  | none =>
    match st.store.recs.find? (fun r => r.id == recordId) with
    | none => (.error "Failed to update project in Airtable: record not found", st)
    | some r =>
      let recs := st.store.recs.map (fun q => if q.id == recordId then applyFields q fields else q)
      (.ok (projectView (applyFields r fields)),
        { st with store := { st.store with recs := recs } })

/-- `linkProjectToClient`: writes `Contacts = [clientId]` on the project row. -/
def linkProjectToClient (env : Env) (st : SyncState) (projectId clientId : String) :
    Except String Unit × SyncState :=
  let st := { st with linkClientCalls := st.linkClientCalls ++ [(projectId, clientId)] }
  match env.linkClientErr with
  | some e => (.error ("Failed to link project to client: " ++ e), st)
  | none =>
    let recs := st.store.recs.map
      (fun q => if q.id == projectId then { q with contacts := some clientId } else q)
    (.ok (), { st with store := { st.store with recs := recs } })

/-- Modelled from the spec: `linkProjectToCompany(projectId, companyId)` writes
the single company link on the project row (the concrete function is not among
the embedded sources; only its call sites are). -/
def linkProjectToCompany (env : Env) (st : SyncState) (projectId companyId : String) :
    Except String Unit × SyncState :=
  let st := { st with linkCompanyCalls := st.linkCompanyCalls ++ [(projectId, companyId)] }
  match env.linkCompanyErr with
  | some e => (.error ("Failed to link project to company: " ++ e), st)
  | none =>
    let recs := st.store.recs.map
      (fun q => if q.id == projectId then { q with company := some companyId } else q)
    (.ok (), { st with store := { st.store with recs := recs } })

/-! ## Company tier (`syncCompanyToAirtable`) -/

/-- `Object.keys(updates).join(', ')` for company updates, in assignment order. -/
def CompanyUpdates.keys (u : CompanyUpdates) : List String :=
  (if u.name.isSome then ["name"] else []) ++
  (if u.website.isSome then ["website"] else []) ++
  (if u.industry.isSome then ["industry"] else []) ++
  (if u.companySize.isSome then ["companySize"] else []) ++
  (if u.country.isSome then ["country"] else [])

/-- The body of the `try` block of `syncCompanyToAirtable`. -/
def syncCompanyAttempt (ops : CompanyStoreOps) (syncableCompanyFields : List String)
    (company : CompanyDetails) : Except String CompanySyncResult := do
  let existing ← ops.findCompanyByHubSpotId company.id
  match existing with
  | some existingCompany =>
    let updates := buildCompanyUpdates syncableCompanyFields company existingCompany
    if updates.isEmpty then
      pure { success := true, action := .skipped, hubspotCompanyId := company.id,
             airtableCompanyId := some existingCompany.id,
             message := "No company fields changed" }
    else do
      let updatedCompany ← ops.updateCompany existingCompany.id updates
      pure { success := true, action := .updated, hubspotCompanyId := company.id,
             airtableCompanyId := some updatedCompany.id,
             message := "Updated company with fields: " ++
               String.intercalate ", " updates.keys }
  | none => do
    let newCompany ← ops.createCompany (buildCompanyFromHubSpot company)
    pure { success := true, action := .created, hubspotCompanyId := company.id,
           airtableCompanyId := some newCompany.id,
           message := "Created new company: " ++ newCompany.name }

/-- `syncCompanyToAirtable`: the `try`/`catch` wrapper — every exception from
the tier is converted into an `error` result carrying the message. -/
def syncCompanyToAirtable (ops : CompanyStoreOps) (syncableCompanyFields : List String)
    (company : CompanyDetails) : CompanySyncResult :=
  match syncCompanyAttempt ops syncableCompanyFields company with
  | .ok r => r
  | .error e =>
    { success := false, action := .error, hubspotCompanyId := company.id, message := e }

/-! ## Contact tier (`syncContactToClient`) -/

def ClientUpdates.keys (u : ClientUpdates) : List String :=
  (if u.firstName.isSome then ["firstName"] else []) ++
  (if u.lastName.isSome then ["lastName"] else []) ++
  (if u.email.isSome then ["email"] else []) ++
  (if u.phone.isSome then ["phone"] else []) ++
  (if u.jobTitle.isSome then ["jobTitle"] else []) ++
  (if u.companyName.isSome then ["companyName"] else [])

/-- `syncContactToClient`, with the `try`/`catch` inlined on the two throwing
operations (`createClient`/`updateClient`); the HubSpot fetch and the client
lookup report absence rather than throwing. -/
def syncContactToClient (env : Env) (hubspotContactId : String) : ContactSyncResult :=
  match env.getContactDetails hubspotContactId with
  | none =>
    { success := false, action := .error, contactId := hubspotContactId,
      message := "Contact " ++ hubspotContactId ++ " not found in HubSpot" }
  | some contact =>
    match env.clientOps.findClientByHubSpotContactId hubspotContactId with
    | some existingClient =>
      let updates := buildClientUpdates contact existingClient
      if updates.isEmpty then
        { success := true, action := .skipped, contactId := hubspotContactId,
          clientId := some existingClient.id, message := "No contact fields changed" }
      else
        match env.clientOps.updateClient existingClient.id updates with
        | .ok updatedClient =>
          { success := true, action := .updated, contactId := hubspotContactId,
            clientId := some updatedClient.id,
            message := "Updated client with fields: " ++
              String.intercalate ", " updates.keys }
        | .error e =>
          { success := false, action := .error, contactId := hubspotContactId,
            message := e }
    | none =>
      match env.clientOps.createClient (buildClientFromContact contact) with
      | .ok newClient =>
        { success := true, action := .created, contactId := hubspotContactId,
          clientId := some newClient.id,
          message := "Created new client: " ++ newClient.firstName ++ " " ++
            newClient.lastName }
      | .error e =>
        { success := false, action := .error, contactId := hubspotContactId,
          message := e }

/-! ## Deal sync (`syncDealToProject`) -/

/-- PART A of `syncDealToProject`: company upsert.  The resulting link id is
retained only when the tier succeeded with a truthy id. -/
def companyTier (env : Env) (deal : DealWithAssociations) : Option String :=
  match deal.company with
  | none => none
  | some company =>
    let companyResult := syncCompanyToAirtable env.companyOps env.syncableCompanyFields company
    if companyResult.success && optTruthy companyResult.airtableCompanyId then
      companyResult.airtableCompanyId
    else none

/-- PART B of `syncDealToProject`: contact upsert on the primary contact.  The
`linkContactToCompany` call that follows it mutates only the Contacts table and
swallows its own failures, so it has no observable effect on this model. -/
def contactTier (env : Env) (deal : DealWithAssociations) : Option String :=
  match deal.contacts with
  | [] => none
  | primaryContact :: _ =>
    let contactResult := syncContactToClient env primaryContact.id
    if contactResult.success && optTruthy contactResult.clientId then
      contactResult.clientId
    else none

/-- The `try { await linkProjectToClient ... } catch` block: the call is made,
its failure is swallowed. -/
def tryLinkClient (env : Env) (st : SyncState) (projectId : String)
    (linkedClientId : Option String) : SyncState :=
  match linkedClientId with
  | some c => (linkProjectToClient env st projectId c).2
  | none => st

/-- The `try { await linkProjectToCompany ... } catch` block. -/
def tryLinkCompany (env : Env) (st : SyncState) (projectId : String)
    (linkedCompanyId : Option String) : SyncState :=
  match linkedCompanyId with
  | some c => (linkProjectToCompany env st projectId c).2
  | none => st

/-- The top-level `catch` of `syncDealToProject`. -/
def errorResult (dealId message : String) : SyncResult :=
  { success := false, action := .error, dealId := dealId, message := message }

/-- `syncDealToProject`: the three-tier UPSERT flow.  The single top-level
`try`/`catch` is inlined at each throwing operation (the upstream fetch,
`createProject`, `updateProject`); effects performed before a throw persist. -/
def syncDealToProject (env : Env) (hubspotDealId : String)
    (propertyChanged : Option String) (st : SyncState) : SyncResult × SyncState :=
  let st := { st with fetchCalls := st.fetchCalls ++ [(hubspotDealId, propertyChanged)] }
  match env.fetchDeal hubspotDealId with
  | .error e => (errorResult hubspotDealId e, st)
  | .ok none =>
    (errorResult hubspotDealId ("Deal " ++ hubspotDealId ++ " not found in HubSpot"), st)
  | .ok (some deal) =>
    let linkedCompanyId := companyTier env deal
    let linkedClientId := contactTier env deal
    match findProjectByHubSpotDealId st.store.recs hubspotDealId with
    | some existingProject =>
      if !Config.enableUpdates then
        ({ success := true, action := .skipped, dealId := hubspotDealId,
           projectId := some existingProject.id, clientId := linkedClientId,
           companyId := linkedCompanyId, message := "Updates disabled in config" }, st)
      else
        let updates := buildProjectUpdates deal existingProject
        let st := tryLinkClient env st existingProject.id linkedClientId
        let st := tryLinkCompany env st existingProject.id linkedCompanyId
        if updates.isEmpty then
          ({ success := true, action := .skipped, dealId := hubspotDealId,
             projectId := some existingProject.id, clientId := linkedClientId,
             companyId := linkedCompanyId, message := "No syncable fields changed" }, st)
        else
          match updateProject env st existingProject.id updates with
          | (.error e, st) => (errorResult hubspotDealId e, st)
          | (.ok updatedProject, st) =>
            ({ success := true, action := .updated, dealId := hubspotDealId,
               projectId := some updatedProject.id, clientId := linkedClientId,
               companyId := linkedCompanyId,
               message := "Updated project with fields: " ++
                 String.intercalate ", " updates.keys }, st)
    | none =>
      let stageId := jsToLower deal.stageId
      if Config.projectCreationStages.contains stageId then
        let projectInput := buildProjectFromDeal deal env.today linkedClientId linkedCompanyId
        match createProject env st projectInput with
        | (.error e, st) => (errorResult hubspotDealId e, st)
        | (.ok newProject, st) =>
          ({ success := true, action := .created, dealId := hubspotDealId,
             projectId := some newProject.id, clientId := linkedClientId,
             companyId := linkedCompanyId,
             message := "Created new project: " ++ newProject.name ++
               (match linkedClientId with
                | some c => " (linked to client " ++ c ++ ")"
                | none => "") ++
               (match linkedCompanyId with
                | some c => " (company " ++ c ++ ")"
                | none => "") }, st)
      else
        ({ success := true, action := .skipped, dealId := hubspotDealId,
           clientId := linkedClientId, companyId := linkedCompanyId,
           message := "Deal stage \x27" ++ deal.stage ++
             "\x27 does not trigger project creation" }, st)

/-! ## Batch webhook processing (`processBatchWebhook`) -/

/-- One step of the `Map.set` fold: replace the payload in place when the id is
already present (JS `Map` keeps first-insertion order), append otherwise. -/
def upsertPayload (acc : List (Nat × HubSpotWebhookPayload))
    (p : HubSpotWebhookPayload) : List (Nat × HubSpotWebhookPayload) :=
  if acc.any (fun q => q.1 == p.objectId) then
    acc.map (fun q => if q.1 == p.objectId then (q.1, p) else q)
  else acc ++ [(p.objectId, p)]

/-- The `uniqueDeals` map of `processBatchWebhook`, as its entry list. -/
def dedupPayloads (payloads : List HubSpotWebhookPayload) :
    List (Nat × HubSpotWebhookPayload) :=
  payloads.foldl upsertPayload []

/-- The processing loop over the deduplicated entries. -/
def runDeduped (env : Env) : List (Nat × HubSpotWebhookPayload) → SyncState →
    List SyncResult × SyncState
  | [], st => ([], st)
  | (objectId, payload) :: rest, st =>
    let (result, st') := syncDealToProject env (toString objectId) payload.propertyName st
    let (results, st'') := runDeduped env rest st'
    (result :: results, st'')

/-- `processBatchWebhook`: deduplicate by object id, then sync each unique deal
once, collecting one result per unique id. -/
def processBatchWebhook (env : Env) (payloads : List HubSpotWebhookPayload)
    (st : SyncState) : List SyncResult × SyncState :=
  runDeduped env (dedupPayloads payloads) st

/-! ## Supporting lemmas -/

theorem stageMapping_ne_empty {k c : String} (h : stageMapping k = some c) : c ≠ "" := by
  unfold stageMapping at h
  repeat' split at h
  all_goals first
    | exact Option.noConfusion h
    | (injection h with h2; subst h2; decide)

theorem projectStatusMapping_ne_empty {k c : String}
    (h : Config.projectStatusMapping k = some c) : c ≠ "" := by
  unfold Config.projectStatusMapping at h
  repeat' split at h
  all_goals first
    | exact Option.noConfusion h
    | (injection h with h2; subst h2; decide)

theorem updateProjectFields_mem {u : ProjectUpdates} {fv : String × String}
    (h : fv ∈ updateProjectFields u) :
    fv.1 = "Project Name" ∨ fv.1 = "Start Date" ∨ fv.1 = "Description" ∨
      fv.1 = "Status" := by
  unfold updateProjectFields at h
  simp only [List.mem_append] at h
  rcases h with ((h | h) | h) | h
  all_goals split at h
  all_goals (try split at h)
  all_goals simp_all

/-! ## Claim theorems -/

/-- C9: stage normalization is a total function that never fails: for every
native stage code, `mapHubSpotStageToReadable` returns the canonical stage from
the fixed lookup table when the lowercased code is one of the seven mapped
codes, and returns the input string unchanged for every code absent from the
table. -/
theorem mapHubSpotStageToReadable_spec :
    (∀ s c, stageMapping (jsToLower s) = some c → mapHubSpotStageToReadable s = c) ∧
    (∀ s, stageMapping (jsToLower s) = none → mapHubSpotStageToReadable s = s) ∧
    mapHubSpotStageToReadable "appointmentscheduled" = "New" ∧
    mapHubSpotStageToReadable "qualifiedtobuy" = "Discovery" ∧
    mapHubSpotStageToReadable "presentationscheduled" = "Proposal" ∧
    mapHubSpotStageToReadable "decisionmakerboughtin" = "Negotiation" ∧
    mapHubSpotStageToReadable "contractsent" = "Negotiation" ∧
    mapHubSpotStageToReadable "closedwon" = "Closed Won" ∧
    mapHubSpotStageToReadable "closedlost" = "Closed Lost" := by
  refine ⟨?_, ?_, by decide, by decide, by decide, by decide, by decide, by decide, by decide⟩
  · intro s c h
    have hne := stageMapping_ne_empty h
    simp [mapHubSpotStageToReadable, h, hne]
  · intro s h
    simp [mapHubSpotStageToReadable, h]

theorem mapHubSpotStageToReadable_spec_witness :
    mapHubSpotStageToReadable "CONTRACTSENT" = "Negotiation" ∧
    mapHubSpotStageToReadable "custom_stage_42" = "custom_stage_42" :=
  ⟨mapHubSpotStageToReadable_spec.1 "CONTRACTSENT" "Negotiation" (by decide),
   mapHubSpotStageToReadable_spec.2.1 "custom_stage_42" (by decide)⟩

theorem applyField_id (r : ProjectRec) (fv : String × String) :
    (applyField r fv).id = r.id ∧ (applyField r fv).hubspotDealId = r.hubspotDealId := by
  unfold applyField
  repeat' split
  all_goals simp

theorem applyField_links (r : ProjectRec) (fv : String × String)
    (hc : fv.1 ≠ "Contacts") (hk : fv.1 ≠ "Company") :
    (applyField r fv).contacts = r.contacts ∧ (applyField r fv).company = r.company := by
  unfold applyField
  repeat' split
  all_goals simp_all

theorem applyFields_frame (r : ProjectRec) (l : List (String × String))
    (hl : ∀ fv ∈ l, fv.1 = "Project Name" ∨ fv.1 = "Start Date" ∨
      fv.1 = "Description" ∨ fv.1 = "Status") :
    (applyFields r l).id = r.id ∧ (applyFields r l).hubspotDealId = r.hubspotDealId ∧
    (applyFields r l).contacts = r.contacts ∧ (applyFields r l).company = r.company := by
  induction l generalizing r with
  | nil => exact ⟨rfl, rfl, rfl, rfl⟩
  | cons fv rest ih =>
    have hfv := hl fv (List.mem_cons_self fv rest)
    have hrest := fun x hx => hl x (List.mem_cons_of_mem fv hx)
    have h1 := applyField_id r fv
    have h2 := applyField_links r fv
      (by rcases hfv with h | h | h | h <;> simp [h])
      (by rcases hfv with h | h | h | h <;> simp [h])
    have hrec := ih (r := applyField r fv) hrest
    simp only [applyFields, List.foldl_cons] at *
    exact ⟨h1.1 ▸ hrec.1, h1.2 ▸ hrec.2.1, h2.1 ▸ hrec.2.2.1, h2.2 ▸ hrec.2.2.2⟩

/-- C7: `updateProject` writes at most the store fields Project Name, Start
Date, Description and Status; a budget value in the supplied partial update is
never written, and applying the written fields to a stored row leaves its
identity, external id, and both link fields untouched. -/
theorem updateProject_field_frame (u : ProjectUpdates) :
    (∀ fv ∈ updateProjectFields u,
        fv.1 = "Project Name" ∨ fv.1 = "Start Date" ∨ fv.1 = "Description" ∨
        fv.1 = "Status") ∧
    updateProjectFields u = updateProjectFields { u with budget := none } ∧
    (∀ r : ProjectRec,
        (applyFields r (updateProjectFields u)).id = r.id ∧
        (applyFields r (updateProjectFields u)).hubspotDealId = r.hubspotDealId ∧
        (applyFields r (updateProjectFields u)).contacts = r.contacts ∧
        (applyFields r (updateProjectFields u)).company = r.company) :=
  ⟨fun fv h => updateProjectFields_mem h, rfl,
   fun r => applyFields_frame r (updateProjectFields u)
     (fun fv h => updateProjectFields_mem h)⟩

theorem updateProject_field_frame_witness :
    (∀ fv ∈ updateProjectFields
        { name := some "N", budget := some 77, startDate := some "2024-12-15",
          description := some "D", status := some "Planned" },
        fv.1 = "Project Name" ∨ fv.1 = "Start Date" ∨ fv.1 = "Description" ∨
        fv.1 = "Status") ∧
    updateProjectFields
        { name := some "N", budget := some 77, startDate := some "2024-12-15",
          description := some "D", status := some "Planned" } =
      [("Project Name", "N"), ("Start Date", "2024-12-15"), ("Description", "D"),
        ("Status", "Planned")] :=
  ⟨(updateProject_field_frame _).1, by decide⟩

/-- C5: for every deal with no existing target project whose lowercased stage
id is not in the configured creation-trigger set, the sync is skipped with the
stage-does-not-trigger-creation message, no create call is issued, and the
project store is untouched, regardless of the deal's other field values. -/
theorem creation_gating (env : Env) (st : SyncState) (dealId : String)
    (prop : Option String) (deal : DealWithAssociations)
    (hfetch : env.fetchDeal dealId = .ok (some deal))
    (hfind : findProjectByHubSpotDealId st.store.recs dealId = none)
    (hstage : Config.projectCreationStages.contains (jsToLower deal.stageId) = false) :
    (syncDealToProject env dealId prop st).1.action = .skipped ∧
    (syncDealToProject env dealId prop st).1.success = true ∧
    (syncDealToProject env dealId prop st).1.message =
      "Deal stage \x27" ++ deal.stage ++ "\x27 does not trigger project creation" ∧
    (syncDealToProject env dealId prop st).2.createCalls = st.createCalls ∧
    (syncDealToProject env dealId prop st).2.store = st.store := by
  simp at hstage
  simp [syncDealToProject, hfetch, hfind, hstage]

theorem runDeduped_length (env : Env) (l : List (Nat × HubSpotWebhookPayload))
    (st : SyncState) : (runDeduped env l st).1.length = l.length := by
  induction l generalizing st with
  | nil => rfl
  | cons ip rest ih =>
    obtain ⟨i, p⟩ := ip
    simp [runDeduped, ih]

/-- C3: the engine never raises past its own boundary.  A fetch failure is
converted into an `error` result carrying the thrown message; an upstream
not-found yields the not-found `error` result; a thrown Airtable create error
is caught and carried in the result; and batch processing yields one result per
deduplicated id unconditionally, so one id's `error` cannot prevent the
remaining ids from being processed. -/
theorem sync_error_boundary :
    (∀ (env : Env) (st : SyncState) (dealId : String) (prop : Option String)
        (e : String),
      env.fetchDeal dealId = .error e →
      (syncDealToProject env dealId prop st).1 = errorResult dealId e ∧
      (syncDealToProject env dealId prop st).2.store = st.store) ∧
    (∀ (env : Env) (st : SyncState) (dealId : String) (prop : Option String),
      env.fetchDeal dealId = .ok none →
      (syncDealToProject env dealId prop st).1 =
        errorResult dealId ("Deal " ++ dealId ++ " not found in HubSpot")) ∧
    (∀ (env : Env) (st : SyncState) (dealId : String) (prop : Option String)
        (deal : DealWithAssociations) (e : String),
      env.fetchDeal dealId = .ok (some deal) →
      findProjectByHubSpotDealId st.store.recs dealId = none →
      Config.projectCreationStages.contains (jsToLower deal.stageId) = true →
      env.createProjectErr = some e →
      (syncDealToProject env dealId prop st).1 =
        errorResult dealId ("Failed to create project in Airtable: " ++ e) ∧
      (syncDealToProject env dealId prop st).2.store = st.store) ∧
    (∀ (env : Env) (st : SyncState) (payloads : List HubSpotWebhookPayload),
      (processBatchWebhook env payloads st).1.length =
        (dedupPayloads payloads).length) := by
  refine ⟨?_, ?_, ?_, ?_⟩
  · intro env st dealId prop e h
    simp [syncDealToProject, h]
  · intro env st dealId prop h
    simp [syncDealToProject, h]
  · intro env st dealId prop deal e hfetch hfind hstage hcreate
    simp at hstage
    simp [syncDealToProject, hfetch, hfind, hstage, createProject, hcreate]
  · intro env st payloads
    exact runDeduped_length env (dedupPayloads payloads) st

theorem diffName_spec (d : DealWithAssociations) (p : Project) (u : ProjectUpdates) :
    diffName d p u =
      { u with name :=
          if Config.syncableFields.contains "dealname" && (jsTrim d.name != p.name) then
            some (jsTrim d.name)
          else u.name } := by
  unfold diffName
  repeat' split
  all_goals simp_all

theorem diffBudget_spec (d : DealWithAssociations) (p : Project) (u : ProjectUpdates) :
    diffBudget d p u =
      { u with budget :=
          if Config.syncableFields.contains "amount" && (d.amount != p.budget) then
            some d.amount
          else u.budget } := by
  unfold diffBudget
  repeat' split
  all_goals simp_all

theorem diffStartDate_spec (d : DealWithAssociations) (p : Project) (u : ProjectUpdates) :
    diffStartDate d p u =
      { u with startDate :=
          if (Config.syncableFields.contains "closedate" && d.closeDate != "") &&
              (datePart d.closeDate != p.startDate) then
            some (datePart d.closeDate)
          else u.startDate } := by
  unfold diffStartDate
  repeat' split
  all_goals simp_all

theorem diffDescription_spec (d : DealWithAssociations) (p : Project) (u : ProjectUpdates) :
    diffDescription d p u =
      { u with description :=
          if (Config.syncableFields.contains "description" && d.description != "") &&
              (d.description != p.description) then
            some d.description
          else u.description } := by
  unfold diffDescription
  repeat' split
  all_goals simp_all

theorem diffStatus_spec (d : DealWithAssociations) (p : Project) (u : ProjectUpdates) :
    diffStatus d p u =
      { u with status :=
          match Config.projectStatusMapping (jsToLower d.stageId) with
          | some s => if s != "" && s != p.status then some s else u.status
          | none => u.status } := by
  unfold diffStatus
  repeat' split
  all_goals simp_all

/-- Normal form of `buildProjectUpdates`: each field of the diff is determined
independently by its own comparison. -/
theorem buildProjectUpdates_eq (d : DealWithAssociations) (p : Project) :
    buildProjectUpdates d p =
      { name :=
          if Config.syncableFields.contains "dealname" && (jsTrim d.name != p.name) then
            some (jsTrim d.name)
          else none
        budget :=
          if Config.syncableFields.contains "amount" && (d.amount != p.budget) then
            some d.amount
          else none
        startDate :=
          if (Config.syncableFields.contains "closedate" && d.closeDate != "") &&
              (datePart d.closeDate != p.startDate) then
            some (datePart d.closeDate)
          else none
        description :=
          if (Config.syncableFields.contains "description" && d.description != "") &&
              (d.description != p.description) then
            some d.description
          else none
        status :=
          match Config.projectStatusMapping (jsToLower d.stageId) with
          | some s => if s != "" && s != p.status then some s else none
          | none => none } := by
  unfold buildProjectUpdates
  rw [diffName_spec, diffBudget_spec, diffStartDate_spec, diffDescription_spec,
    diffStatus_spec]

theorem map_id_of_preserve (f : ProjectRec → ProjectRec)
    (hf : ∀ q, (f q).id = q.id) (l : List ProjectRec) :
    (l.map f).map ProjectRec.id = l.map ProjectRec.id := by
  induction l with
  | nil => rfl
  | cons a t ih => simp [List.map_cons, ih, hf a]

theorem tryLinkClient_frame (env : Env) (st : SyncState) (pid : String)
    (lc : Option String) :
    (tryLinkClient env st pid lc).fetchCalls = st.fetchCalls ∧
    (tryLinkClient env st pid lc).createCalls = st.createCalls ∧
    (tryLinkClient env st pid lc).updateCalls = st.updateCalls ∧
    (tryLinkClient env st pid lc).store.recs.map ProjectRec.id =
      st.store.recs.map ProjectRec.id ∧
    (tryLinkClient env st pid lc).store.counter = st.store.counter := by
  cases lc with
  | none => exact ⟨rfl, rfl, rfl, rfl, rfl⟩
  | some c =>
    unfold tryLinkClient linkProjectToClient
    cases henv : env.linkClientErr with
    | some e => exact ⟨rfl, rfl, rfl, rfl, rfl⟩
    | none =>
      refine ⟨rfl, rfl, rfl, ?_, rfl⟩
      exact map_id_of_preserve _ (fun q => by split <;> rfl) st.store.recs

theorem tryLinkCompany_frame (env : Env) (st : SyncState) (pid : String)
    (lc : Option String) :
    (tryLinkCompany env st pid lc).fetchCalls = st.fetchCalls ∧
    (tryLinkCompany env st pid lc).createCalls = st.createCalls ∧
    (tryLinkCompany env st pid lc).updateCalls = st.updateCalls ∧
    (tryLinkCompany env st pid lc).store.recs.map ProjectRec.id =
      st.store.recs.map ProjectRec.id ∧
    (tryLinkCompany env st pid lc).store.counter = st.store.counter := by
  cases lc with
  | none => exact ⟨rfl, rfl, rfl, rfl, rfl⟩
  | some c =>
    unfold tryLinkCompany linkProjectToCompany
    cases henv : env.linkCompanyErr with
    | some e => exact ⟨rfl, rfl, rfl, rfl, rfl⟩
    | none =>
      refine ⟨rfl, rfl, rfl, ?_, rfl⟩
      exact map_id_of_preserve _ (fun q => by split <;> rfl) st.store.recs

theorem updateProject_isOk (env : Env) (st : SyncState) (rid : String)
    (updates : ProjectUpdates) (h1 : env.updateProjectErr = none)
    (hmem : rid ∈ st.store.recs.map ProjectRec.id) :
    ∃ up st2, updateProject env st rid updates = (Except.ok up, st2) := by
  have hsome : (st.store.recs.find? (fun r => r.id == rid)).isSome := by
    rw [List.find?_isSome]
    obtain ⟨q, hq, hqi⟩ := List.mem_map.1 hmem
    exact ⟨q, hq, by simp [hqi]⟩
  obtain ⟨r, hr⟩ := Option.isSome_iff_exists.1 hsome
  simp only [updateProject, h1, hr]
  exact ⟨_, _, rfl⟩

theorem buildProjectUpdates_status_of_ne {deal : DealWithAssociations} {p : Project}
    {s : String} (hmap : Config.projectStatusMapping (jsToLower deal.stageId) = some s)
    (hne : s ≠ p.status) : (buildProjectUpdates deal p).status = some s := by
  rw [buildProjectUpdates_eq]
  have hs : s ≠ "" := projectStatusMapping_ne_empty hmap
  simp [hmap, hs, hne]

/-- C8: on the update path the project status is recomputed from the
stage-to-status table on every sync, independently of the syncable-field list:
whenever the lowercased stage id maps to a status different from the stored
one, the computed diff includes that status, and the full sync on an existing
project then ends in `updated` rather than `skipped`. -/
theorem status_recompute_forces_update :
    (∀ (deal : DealWithAssociations) (p : Project) (s : String),
      Config.projectStatusMapping (jsToLower deal.stageId) = some s → s ≠ p.status →
      (buildProjectUpdates deal p).status = some s) ∧
    (∀ (env : Env) (st : SyncState) (dealId : String) (prop : Option String)
        (deal : DealWithAssociations) (p : Project) (s : String),
      env.fetchDeal dealId = .ok (some deal) →
      findProjectByHubSpotDealId st.store.recs dealId = some p →
      Config.projectStatusMapping (jsToLower deal.stageId) = some s → s ≠ p.status →
      env.updateProjectErr = none →
      (syncDealToProject env dealId prop st).1.action = .updated) := by
  refine ⟨fun deal p s hmap hne => buildProjectUpdates_status_of_ne hmap hne, ?_⟩
  intro env st dealId prop deal p s hfetch hfind hmap hne hupd
  have hstat := buildProjectUpdates_status_of_ne hmap hne
  have hnonempty : (buildProjectUpdates deal p).isEmpty = false := by
    simp [ProjectUpdates.isEmpty, hstat]
  obtain ⟨r, hr_find, hr_view⟩ :
      ∃ r, st.store.recs.find? (fun q => q.hubspotDealId == dealId) = some r ∧
        projectView r = p := by
    unfold findProjectByHubSpotDealId at hfind
    cases h : st.store.recs.find? (fun q => q.hubspotDealId == dealId) with
    | none => rw [h] at hfind; simp at hfind
    | some r =>
      rw [h] at hfind
      simp at hfind
      exact ⟨r, rfl, hfind⟩
  have hr_mem : r ∈ st.store.recs := List.mem_of_find?_eq_some hr_find
  have hid : p.id = r.id := by rw [← hr_view]; rfl
  have hpid : p.id ∈ st.store.recs.map ProjectRec.id :=
    List.mem_map.2 ⟨r, hr_mem, hid.symm⟩
  simp only [syncDealToProject, hfetch, hfind]
  set st0 : SyncState := { st with fetchCalls := st.fetchCalls ++ [(dealId, prop)] } with hst0
  set st1 := tryLinkClient env st0 p.id (contactTier env deal) with hst1
  set st2 := tryLinkCompany env st1 p.id (companyTier env deal) with hst2
  have hids2 : p.id ∈ st2.store.recs.map ProjectRec.id := by
    rw [(tryLinkCompany_frame env st1 p.id (companyTier env deal)).2.2.2.1,
      (tryLinkClient_frame env st0 p.id (contactTier env deal)).2.2.2.1]
    exact hpid
  obtain ⟨up, st3, hok⟩ :=
    updateProject_isOk env st2 p.id (buildProjectUpdates deal p) hupd hids2
  simp [Config.enableUpdates, hnonempty, ← hst0, ← hst1, ← hst2, hok]

/-! ## Concrete fixtures for the diff-minimality claim -/

/-- A deal that agrees with the stored project on every syncable field and
differs only in `amount`. -/
def amountOnlyDeal : DealWithAssociations :=
  { id := "12345", name := "Test Deal", amount := 75000, stage := "Closed Won",
    stageId := "closedwon", closeDate := "2024-12-15T00:00:00.000Z",
    description := "Annual enterprise license deal" }

/-- The stored Airtable row for deal 12345 (old budget 50000 is not even
readable back: lookups hard-code budget 0). -/
def amountOnlyRec : ProjectRec :=
  { id := "rec123ABC", projectName := "Test Deal", hubspotDealId := "12345",
    status := some "In Progress", startDate := some "2024-12-15",
    description := some "Annual enterprise license deal" }

def amountOnlyEnv : Env :=
  { fetchDeal := fun i => if i == "12345" then .ok (some amountOnlyDeal) else .ok none
    getContactDetails := fun _ => none
    companyOps :=
      { findCompanyByHubSpotId := fun _ => .ok none
        createCompany := fun _ => .error "unused"
        updateCompany := fun _ _ => .error "unused" }
    clientOps :=
      { findClientByHubSpotContactId := fun _ => none
        createClient := fun _ => .error "unused"
        updateClient := fun _ _ => .error "unused" }
    syncableCompanyFields := ["name", "domain", "industry", "numberofemployees", "country"]
    today := "2025-01-02" }

def amountOnlySt : SyncState := { store := { recs := [amountOnlyRec], counter := 1 } }

/-- C6 counterexample: a deal differing from the stored project only in
`amount` produces an empty diff — not the singleton `{budget}` — and the sync
skips without ever calling `updateProject`. -/
theorem diff_only_amount_counterexample :
    amountOnlyDeal.amount ≠ (projectView amountOnlyRec).budget ∧
    jsTrim amountOnlyDeal.name = (projectView amountOnlyRec).name ∧
    datePart amountOnlyDeal.closeDate = (projectView amountOnlyRec).startDate ∧
    amountOnlyDeal.description = (projectView amountOnlyRec).description ∧
    Config.projectStatusMapping (jsToLower amountOnlyDeal.stageId) =
      some (projectView amountOnlyRec).status ∧
    buildProjectUpdates amountOnlyDeal (projectView amountOnlyRec) =
      emptyProjectUpdates ∧
    (buildProjectUpdates amountOnlyDeal (projectView amountOnlyRec)).budget = none ∧
    (syncDealToProject amountOnlyEnv "12345" none amountOnlySt).1.action =
      SyncAction.skipped ∧
    (syncDealToProject amountOnlyEnv "12345" none amountOnlySt).1.message =
      "No syncable fields changed" ∧
    (syncDealToProject amountOnlyEnv "12345" none amountOnlySt).2.updateCalls = [] := by
  decide

/-- C6 (amended): `amount` is not a syncable field, so for a stored project
agreeing with the deal on every syncable field, whatever the amount difference,
the computed update object is empty except for the status field, which is
included exactly when the stage-derived status differs from the stored one; no
`budget` field is ever part of the diff. -/
theorem diff_when_only_amount_changes (deal : DealWithAssociations) (p : Project)
    (hname : jsTrim deal.name = p.name)
    (hdate : deal.closeDate ≠ "" → datePart deal.closeDate = p.startDate)
    (hdesc : deal.description ≠ "" → deal.description = p.description) :
    buildProjectUpdates deal p =
      { status :=
          match Config.projectStatusMapping (jsToLower deal.stageId) with
          | some s => if s != p.status then some s else none
          | none => none } ∧
    (buildProjectUpdates deal p).budget = none := by
  have h1 : (Config.syncableFields.contains "dealname" && (jsTrim deal.name != p.name)) =
      false := by simp [hname]
  have hamt : Config.syncableFields.contains "amount" = false := by decide
  have h2 : (Config.syncableFields.contains "amount" && (deal.amount != p.budget)) =
      false := by rw [hamt, Bool.false_and]
  have h3 : ((Config.syncableFields.contains "closedate" && deal.closeDate != "") &&
      (datePart deal.closeDate != p.startDate)) = false := by
    by_cases hc : deal.closeDate = ""
    · simp [hc]
    · simp [hdate hc]
  have h4 : ((Config.syncableFields.contains "description" && deal.description != "") &&
      (deal.description != p.description)) = false := by
    by_cases hc : deal.description = ""
    · simp [hc]
    · simp [hdesc hc]
  constructor
  · rw [buildProjectUpdates_eq]
    simp only [h1, h2, h3, h4, Bool.false_eq_true, if_false]
    cases heq : Config.projectStatusMapping (jsToLower deal.stageId) with
    | some s =>
      have hs := projectStatusMapping_ne_empty heq
      simp [hs]
    | none => rfl
  · rw [buildProjectUpdates_eq]
    simp only [h2, Bool.false_eq_true, if_false]

theorem companyTier_none_of_attempt_error {env : Env} {deal : DealWithAssociations}
    {company : CompanyDetails} {e : String} (hcomp : deal.company = some company)
    (hthrow : syncCompanyAttempt env.companyOps env.syncableCompanyFields company =
      .error e) : companyTier env deal = none := by
  unfold companyTier syncCompanyToAirtable
  simp [hcomp, hthrow]

/-- C4: any exception thrown inside the company tier (target-company lookup,
create or update) is caught inside `syncCompanyToAirtable` and converted into
an `error` result; the deal sync proceeds, a deal with no pre-existing target
project and a creation-trigger stage still ends `created`, and the created row
carries no company link. -/
theorem company_tier_fault_isolation (env : Env) (st : SyncState)
    (dealId : String) (prop : Option String) (deal : DealWithAssociations)
    (company : CompanyDetails) (e : String)
    (hfetch : env.fetchDeal dealId = .ok (some deal))
    (hcomp : deal.company = some company)
    (hthrow : syncCompanyAttempt env.companyOps env.syncableCompanyFields company =
      .error e)
    (hfind : findProjectByHubSpotDealId st.store.recs dealId = none)
    (hstage : Config.projectCreationStages.contains (jsToLower deal.stageId) = true)
    (hok : env.createProjectErr = none) :
    syncCompanyToAirtable env.companyOps env.syncableCompanyFields company =
      { success := false, action := .error, hubspotCompanyId := company.id,
        message := e } ∧
    (syncDealToProject env dealId prop st).1.action = .created ∧
    (syncDealToProject env dealId prop st).1.success = true ∧
    (syncDealToProject env dealId prop st).1.companyId = none ∧
    ∃ newRec,
      (syncDealToProject env dealId prop st).2.store.recs = st.store.recs ++ [newRec] ∧
      newRec.company = none ∧ newRec.hubspotDealId = deal.id := by
  have hct := companyTier_none_of_attempt_error hcomp hthrow
  have hcsync : syncCompanyToAirtable env.companyOps env.syncableCompanyFields company =
      { success := false, action := .error, hubspotCompanyId := company.id,
        message := e } := by
    unfold syncCompanyToAirtable
    rw [hthrow]
  refine ⟨hcsync, ?_⟩
  simp only [syncDealToProject, hfetch, hfind, hstage, if_true, hct, createProject, hok,
    buildProjectFromDeal, projectRecOfInput, true_and]
  refine ⟨_, rfl, ?_, rfl⟩
  simp [optTruthy]

theorem createProject_ok (env : Env) (st : SyncState) (pi : ProjectInput)
    (hok : env.createProjectErr = none) :
    createProject env st pi =
      (Except.ok
        { id := "rec" ++ toString st.store.counter, name := pi.name,
          hubspotDealId := pi.hubspotDealId, budget := pi.budget.getD 0,
          status := jsOr pi.status "Active", startDate := jsOr pi.startDate "",
          description := jsOr pi.description "", companyId := pi.companyId },
       { st with
          createCalls := st.createCalls ++ [pi],
          store := { recs := st.store.recs ++
                       [projectRecOfInput ("rec" ++ toString st.store.counter) pi],
                     counter := st.store.counter + 1 } }) := by
  simp only [createProject, hok]

/-- Re-syncing the exact row just created from a deal produces an empty diff:
every syncable comparison and the status recomputation agree with the stored
values. -/
theorem buildProjectUpdates_after_create (deal : DealWithAssociations) (today : String)
    (lc cc : Option String) (rid : String) :
    buildProjectUpdates deal
      (projectView (projectRecOfInput rid (buildProjectFromDeal deal today lc cc))) =
      emptyProjectUpdates := by
  have h1 : (Config.syncableFields.contains "dealname" &&
      (jsTrim deal.name !=
        (projectView (projectRecOfInput rid (buildProjectFromDeal deal today lc cc))).name)) =
      false := by
    have : (projectView (projectRecOfInput rid
        (buildProjectFromDeal deal today lc cc))).name = jsTrim deal.name := rfl
    simp [this]
  have hamt : Config.syncableFields.contains "amount" = false := by decide
  have h2 : (Config.syncableFields.contains "amount" &&
      (deal.amount !=
        (projectView (projectRecOfInput rid (buildProjectFromDeal deal today lc cc))).budget)) =
      false := by rw [hamt, Bool.false_and]
  have h3 : ((Config.syncableFields.contains "closedate" && deal.closeDate != "") &&
      (datePart deal.closeDate !=
        (projectView (projectRecOfInput rid
          (buildProjectFromDeal deal today lc cc))).startDate)) = false := by
    by_cases hc : deal.closeDate = ""
    · simp [hc]
    · have hsv : (projectView (projectRecOfInput rid
          (buildProjectFromDeal deal today lc cc))).startDate = datePart deal.closeDate := by
        by_cases hd : datePart deal.closeDate = ""
        · simp [projectView, projectRecOfInput, buildProjectFromDeal, optTruthy, jsOr, hc, hd]
        · simp [projectView, projectRecOfInput, buildProjectFromDeal, optTruthy, jsOr, hc, hd]
      simp [hsv]
  have h4 : ((Config.syncableFields.contains "description" && deal.description != "") &&
      (deal.description !=
        (projectView (projectRecOfInput rid
          (buildProjectFromDeal deal today lc cc))).description)) = false := by
    by_cases hc : deal.description = ""
    · simp [hc]
    · have hdv : (projectView (projectRecOfInput rid
          (buildProjectFromDeal deal today lc cc))).description = deal.description := by
        simp [projectView, projectRecOfInput, buildProjectFromDeal, optTruthy, jsOr, hc]
      simp [hdv]
  rw [buildProjectUpdates_eq]
  simp only [h1, h2, h3, h4, Bool.false_eq_true, if_false]
  cases heq : Config.projectStatusMapping (jsToLower deal.stageId) with
  | none => rfl
  | some s =>
    have hs := projectStatusMapping_ne_empty heq
    have hps : (projectView (projectRecOfInput rid
        (buildProjectFromDeal deal today lc cc))).status = s := by
      simp [projectView, projectRecOfInput, buildProjectFromDeal, optTruthy, jsOr, heq, hs]
    simp [hps, hs, emptyProjectUpdates]

theorem find?_append_none {α : Type} (p : α → Bool) {l1 : List α}
    (h : l1.find? p = none) (l2 : List α) : (l1 ++ l2).find? p = l2.find? p := by
  induction l1 with
  | nil => rfl
  | cons a t ih =>
    cases hpa : p a with
    | true => simp [List.find?, hpa] at h
    | false =>
      simp only [List.find?, hpa] at h
      simpa [List.find?, hpa] using ih h

/-- C1: for a deal in the creation-trigger set with no pre-existing target
project, two successive syncs with identical upstream data yield `created` then
`skipped` with message "No syncable fields changed", and `createProject` is
called exactly once across both runs. -/
theorem sync_idempotent_create_then_skip (env : Env) (st : SyncState)
    (dealId : String) (prop1 prop2 : Option String) (deal : DealWithAssociations)
    (hfetch : env.fetchDeal dealId = .ok (some deal))
    (hid : deal.id = dealId)
    (hstage : Config.projectCreationStages.contains (jsToLower deal.stageId) = true)
    (hnew : ∀ r ∈ st.store.recs, r.hubspotDealId ≠ dealId)
    (hok : env.createProjectErr = none) :
    (syncDealToProject env dealId prop1 st).1.action = .created ∧
    (syncDealToProject env dealId prop2
        (syncDealToProject env dealId prop1 st).2).1.action = .skipped ∧
    (syncDealToProject env dealId prop2
        (syncDealToProject env dealId prop1 st).2).1.success = true ∧
    (syncDealToProject env dealId prop2
        (syncDealToProject env dealId prop1 st).2).1.message =
      "No syncable fields changed" ∧
    (syncDealToProject env dealId prop2
        (syncDealToProject env dealId prop1 st).2).2.createCalls.length =
      st.createCalls.length + 1 := by
  have hfn : st.store.recs.find? (fun r => r.hubspotDealId == dealId) = none :=
    List.find?_eq_none.2 (fun x hx => by simp [hnew x hx])
  have hfind1 : findProjectByHubSpotDealId st.store.recs dealId = none := by
    simp [findProjectByHubSpotDealId, hfn]
  have hact1 : (syncDealToProject env dealId prop1 st).1.action = .created := by
    simp only [syncDealToProject, hfetch, hfind1, hstage, if_true, createProject, hok]
  have hrecs1 : (syncDealToProject env dealId prop1 st).2.store.recs =
      st.store.recs ++ [projectRecOfInput ("rec" ++ toString st.store.counter)
        (buildProjectFromDeal deal env.today (contactTier env deal)
          (companyTier env deal))] := by
    simp only [syncDealToProject, hfetch, hfind1, hstage, if_true, createProject, hok]
  have hcc1 : (syncDealToProject env dealId prop1 st).2.createCalls =
      st.createCalls ++ [buildProjectFromDeal deal env.today (contactTier env deal)
        (companyTier env deal)] := by
    simp only [syncDealToProject, hfetch, hfind1, hstage, if_true, createProject, hok]
  have hfn2 : (st.store.recs ++ [projectRecOfInput ("rec" ++ toString st.store.counter)
      (buildProjectFromDeal deal env.today (contactTier env deal)
        (companyTier env deal))]).find? (fun r => r.hubspotDealId == dealId) =
      some (projectRecOfInput ("rec" ++ toString st.store.counter)
        (buildProjectFromDeal deal env.today (contactTier env deal)
          (companyTier env deal))) := by
    rw [find?_append_none _ hfn]
    simp [List.find?, projectRecOfInput, buildProjectFromDeal, hid]
  have hfind2 : findProjectByHubSpotDealId
      (syncDealToProject env dealId prop1 st).2.store.recs dealId =
      some (projectView (projectRecOfInput ("rec" ++ toString st.store.counter)
        (buildProjectFromDeal deal env.today (contactTier env deal)
          (companyTier env deal)))) := by
    rw [hrecs1]
    simp [findProjectByHubSpotDealId, hfn2]
  have hrun2core : ∀ (pr : Project) (st1 : SyncState),
      findProjectByHubSpotDealId st1.store.recs dealId = some pr →
      buildProjectUpdates deal pr = emptyProjectUpdates →
      (syncDealToProject env dealId prop2 st1).1.action = .skipped ∧
      (syncDealToProject env dealId prop2 st1).1.success = true ∧
      (syncDealToProject env dealId prop2 st1).1.message =
        "No syncable fields changed" ∧
      (syncDealToProject env dealId prop2 st1).2.createCalls = st1.createCalls := by
    intro pr st1 hf hbe
    have hie : emptyProjectUpdates.isEmpty = true := rfl
    simp only [syncDealToProject, hfetch, hf, Config.enableUpdates, Bool.not_true,
      Bool.false_eq_true, if_false, hbe, hie, if_true, true_and]
    rw [(tryLinkCompany_frame _ _ _ _).2.1, (tryLinkClient_frame _ _ _ _).2.1]
  obtain ⟨h2a, h2b, h2c, h2d⟩ := hrun2core _ _ hfind2
    (buildProjectUpdates_after_create deal env.today (contactTier env deal)
      (companyTier env deal) ("rec" ++ toString st.store.counter))
  refine ⟨hact1, h2a, h2b, h2c, ?_⟩
  rw [h2d, hcc1]
  simp

/-- A store transition under which every existing row survives (by id) and no
populated `Contacts`/`Company` link field is ever cleared. -/
def linksPreserved (old new : List ProjectRec) : Prop :=
  ∀ r ∈ old, ∃ q ∈ new, q.id = r.id ∧
    (r.contacts.isSome → q.contacts.isSome) ∧ (r.company.isSome → q.company.isSome)

theorem linksPreserved_refl (l : List ProjectRec) : linksPreserved l l :=
  fun r hr => ⟨r, hr, rfl, id, id⟩

theorem linksPreserved_trans {a b c : List ProjectRec} (h1 : linksPreserved a b)
    (h2 : linksPreserved b c) : linksPreserved a c := by
  intro r hr
  obtain ⟨q, hq, hqi, hqc, hqk⟩ := h1 r hr
  obtain ⟨w, hw, hwi, hwc, hwk⟩ := h2 q hq
  exact ⟨w, hw, hwi.trans hqi, fun h => hwc (hqc h), fun h => hwk (hqk h)⟩

theorem linksPreserved_map (f : ProjectRec → ProjectRec)
    (hid : ∀ q, (f q).id = q.id)
    (hc : ∀ q, q.contacts.isSome → (f q).contacts.isSome)
    (hk : ∀ q, q.company.isSome → (f q).company.isSome) (l : List ProjectRec) :
    linksPreserved l (l.map f) :=
  fun r hr => ⟨f r, List.mem_map_of_mem f hr, hid r, hc r, hk r⟩

theorem linksPreserved_append (l l2 : List ProjectRec) : linksPreserved l (l ++ l2) :=
  fun r hr => ⟨r, List.mem_append_left _ hr, rfl, id, id⟩

theorem tryLinkClient_links (env : Env) (st : SyncState) (pid : String)
    (lc : Option String) :
    linksPreserved st.store.recs (tryLinkClient env st pid lc).store.recs := by
  cases lc with
  | none => exact linksPreserved_refl _
  | some c =>
    unfold tryLinkClient linkProjectToClient
    cases henv : env.linkClientErr with
    | some e => exact linksPreserved_refl _
    | none =>
      exact linksPreserved_map _ (fun q => by split <;> rfl)
        (fun q h => by split <;> simp_all)
        (fun q h => by split <;> simp_all) st.store.recs

theorem tryLinkCompany_links (env : Env) (st : SyncState) (pid : String)
    (lc : Option String) :
    linksPreserved st.store.recs (tryLinkCompany env st pid lc).store.recs := by
  cases lc with
  | none => exact linksPreserved_refl _
  | some c =>
    unfold tryLinkCompany linkProjectToCompany
    cases henv : env.linkCompanyErr with
    | some e => exact linksPreserved_refl _
    | none =>
      exact linksPreserved_map _ (fun q => by split <;> rfl)
        (fun q h => by split <;> simp_all)
        (fun q h => by split <;> simp_all) st.store.recs

theorem updateProject_links (env : Env) (st : SyncState) (rid : String)
    (u : ProjectUpdates) :
    linksPreserved st.store.recs (updateProject env st rid u).2.store.recs := by
  cases h1 : env.updateProjectErr with
  | some e => simp only [updateProject, h1]; exact linksPreserved_refl _
  | none =>
    cases h2 : st.store.recs.find? (fun r => r.id == rid) with
    | none => simp only [updateProject, h1, h2]; exact linksPreserved_refl _
    | some r =>
      simp only [updateProject, h1, h2]
      refine linksPreserved_map _ (fun q => ?_) (fun q h => ?_) (fun q h => ?_)
        st.store.recs
      · split
        · exact (applyFields_frame _ _ (fun fv hfv => updateProjectFields_mem hfv)).1
        · rfl
      · split
        · rw [(applyFields_frame _ _ (fun fv hfv => updateProjectFields_mem hfv)).2.2.1]
          exact h
        · exact h
      · split
        · rw [(applyFields_frame _ _ (fun fv hfv => updateProjectFields_mem hfv)).2.2.2]
          exact h
        · exact h

theorem createProject_links (env : Env) (st : SyncState) (pi : ProjectInput) :
    linksPreserved st.store.recs (createProject env st pi).2.store.recs := by
  cases h : env.createProjectErr with
  | some e => simp only [createProject, h]; exact linksPreserved_refl _
  | none => simp only [createProject, h]; exact linksPreserved_append _ _

/-- C10: link fields are written only by the guarded link calls: the field-diff
update path never emits the `Contacts`/`Company` store fields, and a full sync
never erases an existing link — every row survives with its links at least as
populated as before. -/
theorem links_never_erased (env : Env) (st : SyncState) (dealId : String)
    (prop : Option String) :
    (∀ (u : ProjectUpdates), ∀ fv ∈ updateProjectFields u,
        fv.1 ≠ "Contacts" ∧ fv.1 ≠ "Company") ∧
    linksPreserved st.store.recs (syncDealToProject env dealId prop st).2.store.recs := by
  constructor
  · intro u fv h
    rcases updateProjectFields_mem h with h1 | h1 | h1 | h1 <;> rw [h1] <;> exact
      ⟨by decide, by decide⟩
  · unfold syncDealToProject
    cases env.fetchDeal dealId with
    | error e => exact linksPreserved_refl _
    | ok od =>
      cases od with
      | none => exact linksPreserved_refl _
      | some deal =>
        cases hf : findProjectByHubSpotDealId st.store.recs dealId with
        | some pr =>
          simp only [hf, Config.enableUpdates, Bool.not_true, Bool.false_eq_true,
            if_false]
          have hlinks : linksPreserved st.store.recs
              (tryLinkCompany env
                (tryLinkClient env
                  { st with fetchCalls := st.fetchCalls ++ [(dealId, prop)] }
                  pr.id (contactTier env deal))
                pr.id (companyTier env deal)).store.recs :=
            linksPreserved_trans
              (tryLinkClient_links env
                { st with fetchCalls := st.fetchCalls ++ [(dealId, prop)] }
                pr.id (contactTier env deal))
              (tryLinkCompany_links env _ pr.id (companyTier env deal))
          cases hie : (buildProjectUpdates deal pr).isEmpty with
          | true => simp only [hie, if_true]; exact hlinks
          | false =>
            simp only [hie, Bool.false_eq_true, if_false]
            rcases hu : updateProject env
              (tryLinkCompany env
                (tryLinkClient env
                  { st with fetchCalls := st.fetchCalls ++ [(dealId, prop)] }
                  pr.id (contactTier env deal))
                pr.id (companyTier env deal)) pr.id (buildProjectUpdates deal pr) with
              ⟨res, stx⟩
            have hupd := updateProject_links env
              (tryLinkCompany env
                (tryLinkClient env
                  { st with fetchCalls := st.fetchCalls ++ [(dealId, prop)] }
                  pr.id (contactTier env deal))
                pr.id (companyTier env deal)) pr.id (buildProjectUpdates deal pr)
            rw [hu] at hupd
            cases res with
            | error e => exact linksPreserved_trans hlinks hupd
            | ok up => exact linksPreserved_trans hlinks hupd
        | none =>
          simp only [hf]
          cases hst : Config.projectCreationStages.contains (jsToLower deal.stageId) with
          | false => simp only [hst, Bool.false_eq_true, if_false]
                     exact linksPreserved_refl _
          | true =>
            simp only [hst, if_true]
            rcases hc : createProject env
              { st with fetchCalls := st.fetchCalls ++ [(dealId, prop)] }
              (buildProjectFromDeal deal env.today (contactTier env deal)
                (companyTier env deal)) with ⟨res, stx⟩
            have hcr := createProject_links env
              { st with fetchCalls := st.fetchCalls ++ [(dealId, prop)] }
              (buildProjectFromDeal deal env.today (contactTier env deal)
                (companyTier env deal))
            rw [hc] at hcr
            cases res with
            | error e => exact hcr
            | ok up => exact hcr

/-! ## Batch deduplication properties -/

/-- First-occurrence order of a list of ids (JS `Map` keeps the insertion
position of a key when its value is replaced). -/
def firstOccur (l : List Nat) : List Nat :=
  l.foldl (fun acc x => if acc.any (fun y => y == x) then acc else acc ++ [x]) []

/-- The last payload in list order carrying object id `i`. -/
def lastPayloadFor (payloads : List HubSpotWebhookPayload) (i : Nat) :
    Option HubSpotWebhookPayload :=
  payloads.reverse.find? (fun p => p.objectId == i)

theorem dedupPayloads_append (ps : List HubSpotWebhookPayload)
    (p : HubSpotWebhookPayload) :
    dedupPayloads (ps ++ [p]) = upsertPayload (dedupPayloads ps) p := by
  simp [dedupPayloads, List.foldl_append]

theorem firstOccur_append (l : List Nat) (x : Nat) :
    firstOccur (l ++ [x]) =
      if (firstOccur l).any (fun y => y == x) then firstOccur l
      else firstOccur l ++ [x] := by
  simp [firstOccur, List.foldl_append]

theorem upsertPayload_keys (acc : List (Nat × HubSpotWebhookPayload))
    (p : HubSpotWebhookPayload) :
    (upsertPayload acc p).map Prod.fst =
      if (acc.map Prod.fst).any (fun y => y == p.objectId) then acc.map Prod.fst
      else acc.map Prod.fst ++ [p.objectId] := by
  unfold upsertPayload
  have hany : ∀ (l : List (Nat × HubSpotWebhookPayload)),
      (l.map Prod.fst).any (fun y => y == p.objectId) =
      l.any (fun q => q.1 == p.objectId) := by
    intro l
    induction l with
    | nil => rfl
    | cons a t ih => simp [ih]
  rw [hany]
  cases h : acc.any (fun q => q.1 == p.objectId) with
  | false => simp
  | true =>
    simp only [if_true]
    rw [List.map_map]
    apply List.map_congr_left
    intro q _
    dsimp only [Function.comp]
    split <;> simp_all


theorem dedupPayloads_keys (payloads : List HubSpotWebhookPayload) :
    (dedupPayloads payloads).map Prod.fst =
      firstOccur (payloads.map (fun p => p.objectId)) := by
  induction payloads using List.reverseRecOn with
  | nil => rfl
  | append_singleton ps p ih =>
    rw [dedupPayloads_append, upsertPayload_keys, List.map_append, List.map_singleton,
      firstOccur_append, ih]

theorem dedupPayloads_last (payloads : List HubSpotWebhookPayload)
    (ip : Nat × HubSpotWebhookPayload) (hmem : ip ∈ dedupPayloads payloads) :
    ip.2.objectId = ip.1 ∧ lastPayloadFor payloads ip.1 = some ip.2 := by
  induction payloads using List.reverseRecOn generalizing ip with
  | nil => simp [dedupPayloads] at hmem
  | append_singleton ps p ih =>
    rw [dedupPayloads_append] at hmem
    unfold upsertPayload at hmem
    have hlast_new : lastPayloadFor (ps ++ [p]) p.objectId = some p := by
      simp [lastPayloadFor, List.find?]
    have hlast_old : ∀ i, i ≠ p.objectId →
        lastPayloadFor (ps ++ [p]) i = lastPayloadFor ps i := by
      intro i hi
      have : (p.objectId == i) = false := by simp [Ne.symm hi]
      simp [lastPayloadFor, List.find?, this]
    cases hany : (dedupPayloads ps).any (fun q => q.1 == p.objectId) with
    | true =>
      rw [hany, if_pos rfl] at hmem
      obtain ⟨q, hq, hqe⟩ := List.mem_map.1 hmem
      by_cases hqp : (q.1 == p.objectId) = true
      · rw [if_pos hqp] at hqe
        have hq1 : q.1 = p.objectId := by simpa using hqp
        rw [← hqe]
        refine ⟨hq1.symm, ?_⟩
        rw [hq1, hlast_new]
      · rw [if_neg hqp] at hqe
        subst hqe
        have hne : q.1 ≠ p.objectId := by simpa using hqp
        obtain ⟨h1, h2⟩ := ih q hq
        exact ⟨h1, by rw [hlast_old q.1 hne, h2]⟩
    | false =>
      rw [hany, if_neg Bool.false_ne_true] at hmem
      rcases List.mem_append.1 hmem with hin | hin
      · obtain ⟨h1, h2⟩ := ih ip hin
        have hne : ip.1 ≠ p.objectId := by
          intro heq
          have hx : (dedupPayloads ps).any (fun q => q.1 == p.objectId) = true :=
            List.any_eq_true.2 ⟨ip, hin, beq_iff_eq.mpr heq⟩
          rw [hany] at hx
          exact Bool.false_ne_true hx
        exact ⟨h1, by rw [hlast_old ip.1 hne, h2]⟩
      · have : ip = (p.objectId, p) := by simpa using hin
        subst this
        exact ⟨rfl, hlast_new⟩

theorem updateProject_fetchCalls (env : Env) (st : SyncState) (rid : String)
    (u : ProjectUpdates) :
    (updateProject env st rid u).2.fetchCalls = st.fetchCalls := by
  cases h1 : env.updateProjectErr with
  | some e => simp [updateProject, h1]
  | none =>
    cases h2 : st.store.recs.find? (fun r => r.id == rid) with
    | none => simp [updateProject, h1, h2]
    | some r => simp [updateProject, h1, h2]

theorem createProject_fetchCalls (env : Env) (st : SyncState) (pi : ProjectInput) :
    (createProject env st pi).2.fetchCalls = st.fetchCalls := by
  cases h : env.createProjectErr with
  | some e => simp [createProject, h]
  | none => simp [createProject, h]

/-- Each call of `syncDealToProject` performs exactly one upstream fetch,
recorded with the deal id and the trigger-property annotation it was invoked
with. -/
theorem syncDealToProject_fetchCalls (env : Env) (dealId : String)
    (prop : Option String) (st : SyncState) :
    (syncDealToProject env dealId prop st).2.fetchCalls =
      st.fetchCalls ++ [(dealId, prop)] := by
  unfold syncDealToProject
  cases env.fetchDeal dealId with
  | error e => rfl
  | ok od =>
    cases od with
    | none => rfl
    | some deal =>
      cases hf : findProjectByHubSpotDealId st.store.recs dealId with
      | some pr =>
        simp only [hf, Config.enableUpdates, Bool.not_true, Bool.false_eq_true, if_false]
        have hlf : (tryLinkCompany env
            (tryLinkClient env
              { st with fetchCalls := st.fetchCalls ++ [(dealId, prop)] }
              pr.id (contactTier env deal))
            pr.id (companyTier env deal)).fetchCalls =
            st.fetchCalls ++ [(dealId, prop)] := by
          rw [(tryLinkCompany_frame _ _ _ _).1, (tryLinkClient_frame _ _ _ _).1]
        cases hie : (buildProjectUpdates deal pr).isEmpty with
        | true => simp only [hie, if_true]; exact hlf
        | false =>
          simp only [hie, Bool.false_eq_true, if_false]
          rcases hu : updateProject env
            (tryLinkCompany env
              (tryLinkClient env
                { st with fetchCalls := st.fetchCalls ++ [(dealId, prop)] }
                pr.id (contactTier env deal))
              pr.id (companyTier env deal)) pr.id (buildProjectUpdates deal pr) with
            ⟨res, stx⟩
          have hup := updateProject_fetchCalls env
            (tryLinkCompany env
              (tryLinkClient env
                { st with fetchCalls := st.fetchCalls ++ [(dealId, prop)] }
                pr.id (contactTier env deal))
              pr.id (companyTier env deal)) pr.id (buildProjectUpdates deal pr)
          rw [hu] at hup
          cases res with
          | error e => exact hup.trans hlf
          | ok up => exact hup.trans hlf
      | none =>
        simp only [hf]
        cases hst : Config.projectCreationStages.contains (jsToLower deal.stageId) with
        | false => simp only [hst, Bool.false_eq_true, if_false]
        | true =>
          simp only [hst, if_true]
          rcases hc : createProject env
            { st with fetchCalls := st.fetchCalls ++ [(dealId, prop)] }
            (buildProjectFromDeal deal env.today (contactTier env deal)
              (companyTier env deal)) with ⟨res, stx⟩
          have hcf := createProject_fetchCalls env
            { st with fetchCalls := st.fetchCalls ++ [(dealId, prop)] }
            (buildProjectFromDeal deal env.today (contactTier env deal)
              (companyTier env deal))
          rw [hc] at hcf
          cases res with
          | error e => exact hcf
          | ok up => exact hcf

theorem runDeduped_fetchCalls (env : Env)
    (dd : List (Nat × HubSpotWebhookPayload)) (st : SyncState) :
    (runDeduped env dd st).2.fetchCalls =
      st.fetchCalls ++ dd.map (fun ip => (toString ip.1, ip.2.propertyName)) := by
  induction dd generalizing st with
  | nil => simp [runDeduped]
  | cons ip rest ih =>
    obtain ⟨i, p⟩ := ip
    simp [runDeduped, ih, syncDealToProject_fetchCalls]

/-- C2: `processBatchWebhook` returns exactly one result per distinct object
id; the distinct ids are kept in first-insertion order; the retained payload
per id is the last one seen in list order; and the upstream fetch runs exactly
once per distinct id, annotated with that payload's property name. -/
theorem processBatchWebhook_dedup :
    (∀ (env : Env) (st : SyncState) (payloads : List HubSpotWebhookPayload),
      (processBatchWebhook env payloads st).1.length =
        (dedupPayloads payloads).length) ∧
    (∀ payloads : List HubSpotWebhookPayload,
      (dedupPayloads payloads).map Prod.fst =
        firstOccur (payloads.map (fun p => p.objectId))) ∧
    (∀ (payloads : List HubSpotWebhookPayload) (ip : Nat × HubSpotWebhookPayload),
      ip ∈ dedupPayloads payloads →
      ip.2.objectId = ip.1 ∧ lastPayloadFor payloads ip.1 = some ip.2) ∧
    (∀ (env : Env) (st : SyncState) (payloads : List HubSpotWebhookPayload),
      (processBatchWebhook env payloads st).2.fetchCalls =
        st.fetchCalls ++ (dedupPayloads payloads).map
          (fun ip => (toString ip.1, ip.2.propertyName))) :=
  ⟨fun env st payloads => runDeduped_length env (dedupPayloads payloads) st,
   dedupPayloads_keys,
   dedupPayloads_last,
   fun env st payloads => runDeduped_fetchCalls env (dedupPayloads payloads) st⟩

/-! ## Concrete demonstration fixtures -/

def demoContact : ContactDetails :=
  { id := "c1", firstName := "John", lastName := "Doe", email := "john@example.com" }

def demoDeal : DealWithAssociations :=
  { id := "12345", name := "Test Deal", amount := 50000, stage := "Closed Won",
    stageId := "closedwon", closeDate := "2024-12-15T00:00:00.000Z",
    description := "Annual enterprise license deal",
    contacts := [demoContact], company := some { id := "comp1", name := "Acme Corp" } }

def demoCompanyOps : CompanyStoreOps :=
  { findCompanyByHubSpotId := fun _ => .error "Airtable company lookup failed"
    createCompany := fun _ => .error "Airtable company lookup failed"
    updateCompany := fun _ _ => .error "Airtable company lookup failed" }

def demoClientOps : ClientStoreOps :=
  { findClientByHubSpotContactId := fun _ => none
    createClient := fun ci => .ok
      { id := "recCL1", hubspotContactId := ci.hubspotContactId,
        firstName := ci.firstName, lastName := ci.lastName, email := ci.email,
        phone := ci.phone, jobTitle := ci.jobTitle, companyName := ci.companyName }
    updateClient := fun _ _ => .error "unused" }

def demoEnv : Env :=
  { fetchDeal := fun i => if i == "12345" then .ok (some demoDeal) else .ok none
    getContactDetails := fun i => if i == "c1" then some demoContact else none
    companyOps := demoCompanyOps
    clientOps := demoClientOps
    syncableCompanyFields := ["name", "domain", "industry", "numberofemployees", "country"]
    today := "2025-01-02" }

def emptySyncState : SyncState := { store := { recs := [], counter := 0 } }

def demoDealDiscovery : DealWithAssociations :=
  { demoDeal with stageId := "qualifiedtobuy", stage := "Discovery" }

def discoveryEnv : Env :=
  { demoEnv with
      fetchDeal := fun i => if i == "12345" then .ok (some demoDealDiscovery) else .ok none }

def errEnv : Env :=
  { demoEnv with
      fetchDeal := fun i =>
        if i == "1" then .error "HubSpot API rate limit exceeded" else .ok none }

def createErrEnv : Env :=
  { demoEnv with createProjectErr := some "Airtable field validation failed" }

def demoPayload (eid : Nat) (pname : String) : HubSpotWebhookPayload :=
  { objectId := 12345, propertyName := some pname, eventId := eid,
    subscriptionId := 1, portalId := 1, appId := 1, occurredAt := 0,
    subscriptionType := "deal.propertyChange", attemptNumber := 0 }

def demoBatch : List HubSpotWebhookPayload :=
  [demoPayload 1 "dealstage", demoPayload 2 "amount", demoPayload 3 "dealname"]

/-- Stored row whose status predates a stage change (stage `closedwon` now maps
to "In Progress"). -/
def staleRec : ProjectRec :=
  { id := "rec123ABC", projectName := "Test Deal", hubspotDealId := "12345",
    status := some "Planned", startDate := some "2024-12-15",
    description := some "Annual enterprise license deal" }

def staleSt : SyncState := { store := { recs := [staleRec], counter := 1 } }

def linkedRec : ProjectRec :=
  { id := "recL", projectName := "Linked", hubspotDealId := "777",
    contacts := some "recCL", company := some "recCO" }

def linkedSt : SyncState := { store := { recs := [linkedRec], counter := 5 } }

/-! ## Witnesses -/

theorem sync_idempotent_create_then_skip_witness :
    (syncDealToProject demoEnv "12345" (some "dealstage") emptySyncState).1.action =
      .created ∧
    (syncDealToProject demoEnv "12345" (some "amount")
        (syncDealToProject demoEnv "12345" (some "dealstage") emptySyncState).2).1.action =
      .skipped ∧
    (syncDealToProject demoEnv "12345" (some "amount")
        (syncDealToProject demoEnv "12345" (some "dealstage") emptySyncState).2).1.success =
      true ∧
    (syncDealToProject demoEnv "12345" (some "amount")
        (syncDealToProject demoEnv "12345" (some "dealstage") emptySyncState).2).1.message =
      "No syncable fields changed" ∧
    (syncDealToProject demoEnv "12345" (some "amount")
        (syncDealToProject demoEnv "12345" (some "dealstage") emptySyncState).2).2.createCalls.length =
      emptySyncState.createCalls.length + 1 :=
  sync_idempotent_create_then_skip demoEnv emptySyncState "12345" (some "dealstage")
    (some "amount") demoDeal rfl rfl (by decide) (by simp [emptySyncState]) rfl

theorem processBatchWebhook_dedup_witness :
    (processBatchWebhook demoEnv demoBatch emptySyncState).1.length = 1 ∧
    (dedupPayloads demoBatch).map Prod.fst = [12345] ∧
    lastPayloadFor demoBatch 12345 = some (demoPayload 3 "dealname") ∧
    (processBatchWebhook demoEnv demoBatch emptySyncState).2.fetchCalls =
      [("12345", some "dealname")] := by
  refine ⟨?_, ?_, ?_, ?_⟩
  · rw [processBatchWebhook_dedup.1 demoEnv emptySyncState demoBatch]; decide
  · rw [processBatchWebhook_dedup.2.1 demoBatch]; decide
  · exact (processBatchWebhook_dedup.2.2.1 demoBatch (12345, demoPayload 3 "dealname")
      (by decide)).2
  · rw [processBatchWebhook_dedup.2.2.2 demoEnv emptySyncState demoBatch]; decide

theorem sync_error_boundary_witness :
    (syncDealToProject errEnv "1" none emptySyncState).1 =
      errorResult "1" "HubSpot API rate limit exceeded" ∧
    (syncDealToProject errEnv "99999" none emptySyncState).1 =
      errorResult "99999" "Deal 99999 not found in HubSpot" ∧
    (syncDealToProject createErrEnv "12345" none emptySyncState).1 =
      errorResult "12345"
        "Failed to create project in Airtable: Airtable field validation failed" ∧
    (processBatchWebhook errEnv
      [{ demoPayload 1 "dealstage" with objectId := 1 },
       { demoPayload 2 "dealstage" with objectId := 99999 }] emptySyncState).1.length = 2 :=
  ⟨(sync_error_boundary.1 errEnv emptySyncState "1" none
      "HubSpot API rate limit exceeded" rfl).1,
   sync_error_boundary.2.1 errEnv emptySyncState "99999" none rfl,
   (sync_error_boundary.2.2.1 createErrEnv emptySyncState "12345" none demoDeal
      "Airtable field validation failed" rfl rfl (by decide) rfl).1,
   by
     rw [sync_error_boundary.2.2.2 errEnv emptySyncState
       [{ demoPayload 1 "dealstage" with objectId := 1 },
        { demoPayload 2 "dealstage" with objectId := 99999 }]]
     decide⟩

theorem company_tier_fault_isolation_witness :
    syncCompanyToAirtable demoEnv.companyOps demoEnv.syncableCompanyFields
      { id := "comp1", name := "Acme Corp" } =
      { success := false, action := .error, hubspotCompanyId := "comp1",
        message := "Airtable company lookup failed" } ∧
    (syncDealToProject demoEnv "12345" none emptySyncState).1.action = .created ∧
    (syncDealToProject demoEnv "12345" none emptySyncState).1.success = true ∧
    (syncDealToProject demoEnv "12345" none emptySyncState).1.companyId = none ∧
    ∃ newRec,
      (syncDealToProject demoEnv "12345" none emptySyncState).2.store.recs =
        emptySyncState.store.recs ++ [newRec] ∧
      newRec.company = none ∧ newRec.hubspotDealId = demoDeal.id :=
  company_tier_fault_isolation demoEnv emptySyncState "12345" none demoDeal
    { id := "comp1", name := "Acme Corp" } "Airtable company lookup failed"
    rfl rfl rfl rfl (by decide) rfl

theorem creation_gating_witness :
    (syncDealToProject discoveryEnv "12345" none emptySyncState).1.action = .skipped ∧
    (syncDealToProject discoveryEnv "12345" none emptySyncState).1.success = true ∧
    (syncDealToProject discoveryEnv "12345" none emptySyncState).1.message =
      "Deal stage \x27Discovery\x27 does not trigger project creation" ∧
    (syncDealToProject discoveryEnv "12345" none emptySyncState).2.createCalls =
      emptySyncState.createCalls ∧
    (syncDealToProject discoveryEnv "12345" none emptySyncState).2.store =
      emptySyncState.store :=
  creation_gating discoveryEnv emptySyncState "12345" none demoDealDiscovery
    rfl rfl (by decide)

theorem diff_when_only_amount_changes_witness :
    buildProjectUpdates amountOnlyDeal (projectView amountOnlyRec) =
      { status :=
          match Config.projectStatusMapping (jsToLower amountOnlyDeal.stageId) with
          | some s => if s != (projectView amountOnlyRec).status then some s else none
          | none => none } ∧
    (buildProjectUpdates amountOnlyDeal (projectView amountOnlyRec)).budget = none :=
  diff_when_only_amount_changes amountOnlyDeal (projectView amountOnlyRec)
    (by decide) (fun _ => by decide) (fun _ => by decide)

theorem status_recompute_forces_update_witness :
    (buildProjectUpdates demoDeal (projectView staleRec)).status =
      some "In Progress" ∧
    (syncDealToProject demoEnv "12345" none staleSt).1.action = .updated :=
  ⟨status_recompute_forces_update.1 demoDeal (projectView staleRec) "In Progress"
      (by decide) (by decide),
   status_recompute_forces_update.2 demoEnv staleSt "12345" none demoDeal
      (projectView staleRec) "In Progress" rfl (by decide) (by decide)
      (by decide) rfl⟩

theorem links_never_erased_witness :
    (∀ fv ∈ updateProjectFields
        { name := some "N", budget := some 5, startDate := none,
          description := none, status := some "Planned" },
      fv.1 ≠ "Contacts" ∧ fv.1 ≠ "Company") ∧
    (∃ q ∈ (syncDealToProject demoEnv "12345" none linkedSt).2.store.recs,
      q.id = linkedRec.id ∧ (linkedRec.contacts.isSome → q.contacts.isSome) ∧
      (linkedRec.company.isSome → q.company.isSome)) :=
  ⟨fun fv h => (links_never_erased demoEnv linkedSt "12345" none).1 _ fv h,
   (links_never_erased demoEnv linkedSt "12345" none).2 linkedRec (by decide)⟩

end FitOps
